import Mathlib

/-!
Verification of the two-venue arbitrage system (packages risk, strategy,
apex, bybit) against its design specification.

Shallow embedding conventions:
* Go float64 money/price/size values are modelled as rationals (ℚ); every
  comparison performed by the code is an exact comparison, so ℚ is a
  faithful model of the float comparisons at the inputs considered here.
* Time instants are an abstract integer timeline (`Int`), in seconds.
  `time.Now()` is passed in explicitly as a `Clock`, carrying both the
  current instant and the value `todayStart()` would produce at it.
* Mutating methods become functions `State → result × State` (or just
  `State → State`).
* External effects (websocket dials, REST order placement, account
  queries) are modelled by explicit outcome parameters: the embedding is
  a function of the outcomes the outside world produced.
* Go's formatted log/error strings are modelled by inductive message
  values carrying the same data the format verbs would print.
-/

/- ===================== risk/controller.go ===================== -/

/-- config.RiskConfig (config/config.go): the three risk limits. -/
structure RiskConfig where
  MaxDailyLossUSDC : ℚ
  MaxConsecutiveLoss : Int
  MinBalanceUSDC : ℚ
deriving DecidableEq, Repr

/-- An abstract instant: `now` is the current time and `midnight` the value
`todayStart()` (local midnight of the current day) evaluates to at it. -/
structure Clock where
  now : Int
  midnight : Int
deriving DecidableEq, Repr

/-- 24 hours on the integer timeline (seconds). -/
def hours24 : Int := 86400

/-- The data carried by the three formatted halt messages built in
risk/controller.go Check (lines 55, 62, 69). -/
inductive RiskMsg where
  | lowBalance (avail minBal : ℚ)
  | dailyLoss (loss limit : ℚ)
  | consecLoss (n maxN : Int)
deriving DecidableEq, Repr

/-- The two shapes of error `Check` returns: line 50 re-wraps the stored
halt message; lines 57/64/71 return the freshly built message. -/
inductive RiskErr where
  | haltedErr (stored : Option RiskMsg)
  | reject (m : RiskMsg)
deriving DecidableEq, Repr

/-- risk.Controller state. `haltedMsg` is `none` for Go's empty string. -/
structure Controller where
  cfg : RiskConfig
  dailyPnL : ℚ
  consecutiveLoss : Int
  halted : Bool
  haltedMsg : Option RiskMsg
  dayStart : Int
deriving DecidableEq, Repr

/-- Controller.halt (controller.go lines 119-125): latch the breaker only
if not already halted. -/
def halt (m : RiskMsg) (c : Controller) : Controller :=
  if !c.halted then { c with halted := true, haltedMsg := some m } else c

/-- Controller.resetIfNewDay (controller.go lines 127-137): if now is
strictly after dayStart + 24h, zero the daily stats and advance dayStart
to the current local midnight. -/
def resetIfNewDay (clk : Clock) (c : Controller) : Controller :=
  if clk.now > c.dayStart + hours24 then
    { c with dailyPnL := 0, consecutiveLoss := 0, halted := false,
             haltedMsg := none, dayStart := clk.midnight }
  else c

/-- Controller.Check (controller.go lines 41-75): returns the rejection
(if any) and the updated controller state. -/
def Check (clk : Clock) (availableBalance : ℚ) (c0 : Controller) :
    Option RiskErr × Controller :=
  let c := resetIfNewDay clk c0
  if c.halted then
    (some (RiskErr.haltedErr c.haltedMsg), c)
  else if availableBalance < c.cfg.MinBalanceUSDC then
    let m := RiskMsg.lowBalance availableBalance c.cfg.MinBalanceUSDC
    (some (RiskErr.reject m), halt m c)
  else if c.dailyPnL < -c.cfg.MaxDailyLossUSDC then
    let m := RiskMsg.dailyLoss (-c.dailyPnL) c.cfg.MaxDailyLossUSDC
    (some (RiskErr.reject m), halt m c)
  else if c.consecutiveLoss ≥ c.cfg.MaxConsecutiveLoss then
    let m := RiskMsg.consecLoss c.consecutiveLoss c.cfg.MaxConsecutiveLoss
    (some (RiskErr.reject m), halt m c)
  else (none, c)

/-- Controller.RecordTrade (controller.go lines 78-91). -/
def RecordTrade (pnl : ℚ) (c : Controller) : Controller :=
  let c1 := { c with dailyPnL := c.dailyPnL + pnl }
  if pnl < 0 then { c1 with consecutiveLoss := c1.consecutiveLoss + 1 }
  else { c1 with consecutiveLoss := 0 }

/-- Controller.Reset (controller.go lines 108-115). -/
def Reset (c : Controller) : Controller :=
  { c with halted := false, haltedMsg := none, consecutiveLoss := 0 }

/-- Modelled from the spec: the `Check` algorithm as the specification
words it — five short-circuiting steps, each latch written out as a direct
state update ("latch halted=true with that reason"). Used only to compare
against the source-derived `Check`. -/
def CheckSpec (clk : Clock) (bal : ℚ) (c0 : Controller) :
    Option RiskErr × Controller :=
  let c :=
    if clk.now > c0.dayStart + hours24 then
      { c0 with dailyPnL := 0, consecutiveLoss := 0, halted := false,
                haltedMsg := none, dayStart := clk.midnight }
    else c0
  if c.halted then
    (some (RiskErr.haltedErr c.haltedMsg), c)
  else if bal < c.cfg.MinBalanceUSDC then
    let m := RiskMsg.lowBalance bal c.cfg.MinBalanceUSDC
    (some (RiskErr.reject m), { c with halted := true, haltedMsg := some m })
  else if c.dailyPnL < -c.cfg.MaxDailyLossUSDC then
    let m := RiskMsg.dailyLoss (-c.dailyPnL) c.cfg.MaxDailyLossUSDC
    (some (RiskErr.reject m), { c with halted := true, haltedMsg := some m })
  else if c.consecutiveLoss ≥ c.cfg.MaxConsecutiveLoss then
    let m := RiskMsg.consecLoss c.consecutiveLoss c.cfg.MaxConsecutiveLoss
    (some (RiskErr.reject m), { c with halted := true, haltedMsg := some m })
  else (none, c)

/-- One externally visible controller operation. -/
inductive RiskOp where
  | check (clk : Clock) (bal : ℚ)
  | record (pnl : ℚ)
deriving DecidableEq, Repr

/-- Apply one risk operation, keeping only the state. -/
def applyRiskOp (c : Controller) (op : RiskOp) : Controller :=
  match op with
  | RiskOp.check clk bal => (Check clk bal c).2
  | RiskOp.record pnl => RecordTrade pnl c

/-- Run a sequence of risk operations. -/
def runRiskOps (c : Controller) (ops : List RiskOp) : Controller :=
  ops.foldl applyRiskOp c

/-- An operation stays within the day that started at `d`: any Check it
performs happens at an instant not strictly past `d + 24h`. -/
def opSameDay (d : Int) : RiskOp → Prop
  | RiskOp.check clk _ => ¬ clk.now > d + hours24
  | RiskOp.record _ => True

/-- A halted controller is untouched by a same-day Check, and RecordTrade
never touches halted, haltedMsg or dayStart. -/
theorem applyRiskOp_halted_invariant (c : Controller) (op : RiskOp)
    (hh : c.halted = true) (hd : opSameDay c.dayStart op) :
    (applyRiskOp c op).halted = true ∧
    (applyRiskOp c op).haltedMsg = c.haltedMsg ∧
    (applyRiskOp c op).dayStart = c.dayStart := by
  cases op with
  | check clk bal =>
      simp only [opSameDay] at hd
      simp [applyRiskOp, Check, resetIfNewDay, hd, hh]
  | record pnl =>
      simp only [applyRiskOp, RecordTrade]
      split <;> simp [hh]

/-- C4: once halted, for any same-day sequence of Check/RecordTrade calls
(no day boundary crossed, no Reset), the controller stays halted with the
same stored reason, and every subsequent same-day Check rejects with that
stored reason regardless of the balance passed. -/
theorem halted_sticky_within_day (c : Controller) (ops : List RiskOp)
    (hh : c.halted = true) (hd : ∀ op ∈ ops, opSameDay c.dayStart op) :
    (runRiskOps c ops).halted = true ∧
    (runRiskOps c ops).haltedMsg = c.haltedMsg ∧
    (runRiskOps c ops).dayStart = c.dayStart ∧
    (∀ clk bal, ¬ clk.now > c.dayStart + hours24 →
      (Check clk bal (runRiskOps c ops)).1 =
        some (RiskErr.haltedErr c.haltedMsg)) := by
  induction ops generalizing c with
  | nil =>
      refine ⟨hh, rfl, rfl, ?_⟩
      intro clk bal hclk
      simp [runRiskOps, Check, resetIfNewDay, hclk, hh]
  | cons op rest ih =>
      have hop := applyRiskOp_halted_invariant c op hh (hd op (by simp))
      have hrest : ∀ o ∈ rest, opSameDay (applyRiskOp c op).dayStart o := by
        intro o ho
        rw [hop.2.2]
        exact hd o (by simp [ho])
      have h2 := ih (applyRiskOp c op) hop.1 hrest
      have hrun : runRiskOps c (op :: rest) = runRiskOps (applyRiskOp c op) rest := by
        simp [runRiskOps, List.foldl]
      rw [hrun]
      refine ⟨h2.1, ?_, ?_, ?_⟩
      · rw [h2.2.1, hop.2.1]
      · rw [h2.2.2.1, hop.2.2]
      · intro clk bal hclk
        rw [hop.2.2] at h2
        rw [h2.2.2.2 clk bal hclk, hop.2.1]

/-- Witness for C4 at a concrete halted controller and operation list. -/
theorem halted_sticky_within_day_witness :
    (runRiskOps
      { cfg := { MaxDailyLossUSDC := 50, MaxConsecutiveLoss := 3, MinBalanceUSDC := 10 },
        dailyPnL := -7, consecutiveLoss := 1, halted := true,
        haltedMsg := some (RiskMsg.lowBalance 5 10), dayStart := 0 }
      [RiskOp.record (-5), RiskOp.check ⟨100, 0⟩ 1000, RiskOp.record 9]).halted = true ∧
    (Check ⟨200, 0⟩ 1000
      (runRiskOps
        { cfg := { MaxDailyLossUSDC := 50, MaxConsecutiveLoss := 3, MinBalanceUSDC := 10 },
          dailyPnL := -7, consecutiveLoss := 1, halted := true,
          haltedMsg := some (RiskMsg.lowBalance 5 10), dayStart := 0 }
        [RiskOp.record (-5), RiskOp.check ⟨100, 0⟩ 1000, RiskOp.record 9])).1 =
      some (RiskErr.haltedErr (some (RiskMsg.lowBalance 5 10))) := by
  have h := halted_sticky_within_day
    { cfg := { MaxDailyLossUSDC := 50, MaxConsecutiveLoss := 3, MinBalanceUSDC := 10 },
      dailyPnL := -7, consecutiveLoss := 1, halted := true,
      haltedMsg := some (RiskMsg.lowBalance 5 10), dayStart := 0 }
    [RiskOp.record (-5), RiskOp.check ⟨100, 0⟩ 1000, RiskOp.record 9]
    rfl (by intro op hop; fin_cases hop <;> norm_num [opSameDay, hours24])
  exact ⟨h.1, h.2.2.2 ⟨200, 0⟩ 1000 (by norm_num [hours24])⟩

/-- C5: `Check` evaluates exactly the five short-circuiting steps in the
order the specification lists them: day-rollover reset, sticky-halt
rejection, balance floor latch, daily-loss latch, consecutive-loss latch,
otherwise acceptance. Stated as equality with `CheckSpec`, the direct
transcription of the specification text. -/
theorem Check_matches_spec (clk : Clock) (bal : ℚ) (c : Controller) :
    Check clk bal c = CheckSpec clk bal c := by
  simp only [Check, CheckSpec, resetIfNewDay, halt]
  split <;> split <;> simp_all

/-- C7: RecordTrade adds pnl to dailyPnL; a strictly negative pnl
increments the consecutive-loss count by one, a non-negative pnl resets
it to zero; all other fields are untouched. -/
theorem RecordTrade_spec (pnl : ℚ) (c : Controller) :
    (RecordTrade pnl c).dailyPnL = c.dailyPnL + pnl ∧
    (RecordTrade pnl c).consecutiveLoss =
      (if pnl < 0 then c.consecutiveLoss + 1 else 0) ∧
    (RecordTrade pnl c).halted = c.halted ∧
    (RecordTrade pnl c).haltedMsg = c.haltedMsg ∧
    (RecordTrade pnl c).dayStart = c.dayStart := by
  simp only [RecordTrade]
  split <;> simp_all

/-- C10: Reset clears halted, the halt reason and the consecutive-loss
count while leaving dailyPnL, dayStart and the configuration unchanged;
consequently, if the daily-loss limit is still breached, the next same-day
Check with a sufficient balance latches halted again and rejects with the
daily-loss reason. -/
theorem Reset_frame_and_relatch (c : Controller) :
    (Reset c).halted = false ∧
    (Reset c).haltedMsg = none ∧
    (Reset c).consecutiveLoss = 0 ∧
    (Reset c).dailyPnL = c.dailyPnL ∧
    (Reset c).dayStart = c.dayStart ∧
    (Reset c).cfg = c.cfg ∧
    (∀ clk bal, ¬ clk.now > c.dayStart + hours24 →
      ¬ bal < c.cfg.MinBalanceUSDC →
      c.dailyPnL < -c.cfg.MaxDailyLossUSDC →
      (Check clk bal (Reset c)).1 =
        some (RiskErr.reject (RiskMsg.dailyLoss (-c.dailyPnL) c.cfg.MaxDailyLossUSDC)) ∧
      (Check clk bal (Reset c)).2.halted = true) := by
  refine ⟨rfl, rfl, rfl, rfl, rfl, rfl, ?_⟩
  intro clk bal hclk hbal hloss
  simp [Check, resetIfNewDay, halt, Reset, hclk, hbal, hloss]

/-- Witness for C10 at a concrete controller still over its daily-loss
limit after the operator reset. -/
theorem Reset_frame_and_relatch_witness :
    (Reset
      { cfg := { MaxDailyLossUSDC := 50, MaxConsecutiveLoss := 3, MinBalanceUSDC := 10 },
        dailyPnL := -80, consecutiveLoss := 4, halted := true,
        haltedMsg := some (RiskMsg.consecLoss 4 3), dayStart := 0 }).halted = false ∧
    (Check ⟨300, 0⟩ 100
      (Reset
        { cfg := { MaxDailyLossUSDC := 50, MaxConsecutiveLoss := 3, MinBalanceUSDC := 10 },
          dailyPnL := -80, consecutiveLoss := 4, halted := true,
          haltedMsg := some (RiskMsg.consecLoss 4 3), dayStart := 0 })).1 =
      some (RiskErr.reject (RiskMsg.dailyLoss 80 50)) := by
  have h := Reset_frame_and_relatch
    { cfg := { MaxDailyLossUSDC := 50, MaxConsecutiveLoss := 3, MinBalanceUSDC := 10 },
      dailyPnL := -80, consecutiveLoss := 4, halted := true,
      haltedMsg := some (RiskMsg.consecLoss 4 3), dayStart := 0 }
  have h2 := h.2.2.2.2.2.2 ⟨300, 0⟩ 100
    (by norm_num [hours24]) (by norm_num) (by norm_num)
  exact ⟨h.1, by rw [h2.1]; norm_num⟩

/- ===================== strategy/engine.go ===================== -/

/-- config.StrategyConfig (config/config.go): the strategy parameters the
engine reads. The precision fields only drive decimal string formatting
of order prices/sizes, abstracted here. -/
structure StrategyConfig where
  MinSpreadUSDC : ℚ
  OrderSize : ℚ
  MaxPosition : ℚ
  CheckIntervalMs : Int
  TakeProfitUSDC : ℚ
  StopLossUSDC : ℚ
  PricePrecision : Int
  SizePrecision : Int
  HedgeMode : Bool
deriving DecidableEq, Repr

/-- Order side, covering Apex BUY/SELL and Bybit Buy/Sell. -/
inductive Side where
  | buy
  | sell
deriving DecidableEq, Repr

/-- Observable events of one execute call: which IOC orders were placed
(venue, side, limit price) and the log outcomes. `nakedWarning` is the
"对冲…失败…（Apex 腿已成交，注意风险）" log at engine.go lines 299/355. -/
inductive ExecEvent where
  | apexOrderPlaced (side : Side) (price : ℚ)
  | apexLegFailed
  | bybitOrderPlaced (side : Side) (price : ℚ)
  | nakedWarning
  | completed (pnl : ℚ)
deriving DecidableEq, Repr

/-- Outcomes the outside world produced during one decision tick:
the Bybit GetAccount result (none = error, some availableMargin) and
whether each venue accepted its PlaceOrder call. -/
structure TickEnv where
  accountResult : Option ℚ
  apexOrderOk : Bool
  bybitOrderOk : Bool
deriving DecidableEq, Repr

/-- The engine-owned mutable state read and written by one tick: the four
atomically stored best prices, the net position, the cumulative PnL and
the risk controller. -/
structure EngineState where
  apexBid : ℚ
  apexAsk : ℚ
  bybitBid : ℚ
  bybitAsk : ℚ
  position : ℚ
  totalPnL : ℚ
  risk : Controller
deriving DecidableEq, Repr

/-- ArbEngine.executeLong (engine.go lines 265-317): leg 1 buys on Apex
at the observed ask; on its failure nothing else happens. With hedge mode
on, leg 2 sells on Bybit at the observed bid; on its failure the code
logs the naked-position warning and returns (lines 298-301) without
touching position, totalPnL or the risk controller. Otherwise position
increases by OrderSize and spread × OrderSize is added to totalPnL and
recorded with RecordTrade. -/
def executeLong (scfg : StrategyConfig) (env : TickEnv)
    (apexAsk bybitBid spread : ℚ) (st : EngineState) :
    EngineState × List ExecEvent :=
  if !env.apexOrderOk then (st, [ExecEvent.apexLegFailed])
  else if scfg.HedgeMode && !env.bybitOrderOk then
    (st, [ExecEvent.apexOrderPlaced Side.buy apexAsk, ExecEvent.nakedWarning])
  else
    let legs :=
      if scfg.HedgeMode then
        [ExecEvent.apexOrderPlaced Side.buy apexAsk,
         ExecEvent.bybitOrderPlaced Side.sell bybitBid]
      else [ExecEvent.apexOrderPlaced Side.buy apexAsk]
    let estimatedPnL := spread * scfg.OrderSize
    ({ st with position := st.position + scfg.OrderSize,
               totalPnL := st.totalPnL + estimatedPnL,
               risk := RecordTrade estimatedPnL st.risk },
     legs ++ [ExecEvent.completed estimatedPnL])

/-- ArbEngine.executeShort (engine.go lines 321-373): leg 1 sells on Apex
at the observed bid; with hedge mode on, leg 2 buys on Bybit at the
observed ask; a leg-2 failure logs the naked-position warning and returns
without state changes; otherwise position decreases by OrderSize and
spread × OrderSize is added to totalPnL and recorded. -/
def executeShort (scfg : StrategyConfig) (env : TickEnv)
    (apexBid bybitAsk spread : ℚ) (st : EngineState) :
    EngineState × List ExecEvent :=
  if !env.apexOrderOk then (st, [ExecEvent.apexLegFailed])
  else if scfg.HedgeMode && !env.bybitOrderOk then
    (st, [ExecEvent.apexOrderPlaced Side.sell apexBid, ExecEvent.nakedWarning])
  else
    let legs :=
      if scfg.HedgeMode then
        [ExecEvent.apexOrderPlaced Side.sell apexBid,
         ExecEvent.bybitOrderPlaced Side.buy bybitAsk]
      else [ExecEvent.apexOrderPlaced Side.sell apexBid]
    let estimatedPnL := spread * scfg.OrderSize
    ({ st with position := st.position - scfg.OrderSize,
               totalPnL := st.totalPnL + estimatedPnL,
               risk := RecordTrade estimatedPnL st.risk },
     legs ++ [ExecEvent.completed estimatedPnL])

/-- Which path one tick of checkAndTrade took. -/
inductive TickOutcome where
  | notReady
  | accountError
  | riskRejected (e : RiskErr)
  | takeProfitStop
  | stopLossStop
  | executedLong (events : List ExecEvent)
  | executedShort (events : List ExecEvent)
  | noOpportunity
deriving DecidableEq, Repr

/-- ArbEngine.checkAndTrade (engine.go lines 189-261): zero-quote guard,
account query, risk gate (whose state update is kept even on rejection),
take-profit/stop-loss early stop, then the two opportunities in fixed
priority order, at most one firing. -/
def checkAndTrade (scfg : StrategyConfig) (clk : Clock) (env : TickEnv)
    (st : EngineState) : EngineState × TickOutcome :=
  if st.apexBid = 0 ∨ st.apexAsk = 0 ∨ st.bybitBid = 0 ∨ st.bybitAsk = 0 then
    (st, TickOutcome.notReady)
  else
    match env.accountResult with
    | none => (st, TickOutcome.accountError)
    | some avail =>
      match Check clk avail st.risk with
      | (some e, risk2) => ({ st with risk := risk2 }, TickOutcome.riskRejected e)
      | (none, risk2) =>
        let st1 := { st with risk := risk2 }
        if st1.totalPnL ≥ scfg.TakeProfitUSDC then (st1, TickOutcome.takeProfitStop)
        else if st1.totalPnL ≤ -scfg.StopLossUSDC then (st1, TickOutcome.stopLossStop)
        else
          let spread1 := st1.bybitBid - st1.apexAsk
          if spread1 ≥ scfg.MinSpreadUSDC ∧ st1.position < scfg.MaxPosition then
            let r := executeLong scfg env st1.apexAsk st1.bybitBid spread1 st1
            (r.1, TickOutcome.executedLong r.2)
          else
            let spread2 := st1.apexBid - st1.bybitAsk
            if spread2 ≥ scfg.MinSpreadUSDC ∧ st1.position > -scfg.MaxPosition then
              let r := executeShort scfg env st1.apexBid st1.bybitAsk spread2 st1
              (r.1, TickOutcome.executedShort r.2)
            else (st, TickOutcome.noOpportunity)

/-- A concrete healthy risk controller used by the concrete scenarios. -/
def sampleRisk : Controller :=
  { cfg := { MaxDailyLossUSDC := 50, MaxConsecutiveLoss := 3, MinBalanceUSDC := 10 },
    dailyPnL := 0, consecutiveLoss := 0, halted := false,
    haltedMsg := none, dayStart := 0 }

/-- A concrete strategy configuration (hedge mode selectable). -/
def sampleStrat (hedge : Bool) : StrategyConfig :=
  { MinSpreadUSDC := 1, OrderSize := 1, MaxPosition := 1, CheckIntervalMs := 200,
    TakeProfitUSDC := 1000, StopLossUSDC := 1000, PricePrecision := 2,
    SizePrecision := 4, HedgeMode := hedge }

/-- The spec scenario quotes: Apex ask 99.0 and Bybit bid 100.5, with the
other two quotes non-zero, flat position, zero PnL. -/
def sampleState : EngineState :=
  { apexBid := 989/10, apexAsk := 99, bybitBid := 201/2, bybitAsk := 503/5,
    position := 0, totalPnL := 0, risk := sampleRisk }

/-- C1 fails on the code: with hedge mode on, leg 1 succeeding and the
Bybit hedge leg failing, executeLong logs the naked-position warning but
returns with the engine state (position, totalPnL, risk controller)
completely unchanged — it does not add OrderSize to the position (which
would change it, since OrderSize = 1 ≠ 0) and does not run RecordTrade
(which would change the risk state). -/
theorem leg2_failure_counterexample :
    (executeLong (sampleStrat true) ⟨some 100, true, false⟩ 99 (201/2) (3/2)
        sampleState).1 = sampleState ∧
    (executeLong (sampleStrat true) ⟨some 100, true, false⟩ 99 (201/2) (3/2)
        sampleState).2 =
      [ExecEvent.apexOrderPlaced Side.buy 99, ExecEvent.nakedWarning] ∧
    sampleState.position + (sampleStrat true).OrderSize ≠ sampleState.position ∧
    RecordTrade ((3/2) * (sampleStrat true).OrderSize) sampleState.risk ≠
      sampleState.risk := by
  refine ⟨rfl, rfl, ?_, ?_⟩
  · norm_num [sampleState, sampleStrat]
  · have hd : (RecordTrade ((3/2) * (sampleStrat true).OrderSize)
        sampleState.risk).dailyPnL = 3/2 := by
      norm_num [RecordTrade, sampleState, sampleRisk, sampleStrat]
    intro hcontra
    rw [hcontra] at hd
    norm_num [sampleState, sampleRisk] at hd

/-- C1 amended: if leg 1 succeeds, hedge mode is enabled and the leg-2
hedge order on Bybit fails, both executeLong and executeShort emit the
naked-position warning and return with position, cumulative PnL and risk
state untouched — no position or PnL update and no RecordTrade call
happen, unlike the fully successful case. -/
theorem leg2_failure_naked_warning_no_update (scfg : StrategyConfig)
    (env : TickEnv) (a b sp : ℚ) (st : EngineState)
    (hh : scfg.HedgeMode = true) (h1 : env.apexOrderOk = true)
    (h2 : env.bybitOrderOk = false) :
    executeLong scfg env a b sp st =
      (st, [ExecEvent.apexOrderPlaced Side.buy a, ExecEvent.nakedWarning]) ∧
    executeShort scfg env a b sp st =
      (st, [ExecEvent.apexOrderPlaced Side.sell a, ExecEvent.nakedWarning]) := by
  simp [executeLong, executeShort, h1, h2, hh]

/-- Witness for the amended C1 at the concrete scenario values. -/
theorem leg2_failure_naked_warning_no_update_witness :
    executeLong (sampleStrat true) ⟨some 100, true, false⟩ 99 (201/2) (3/2)
        sampleState =
      (sampleState,
       [ExecEvent.apexOrderPlaced Side.buy 99, ExecEvent.nakedWarning]) := by
  exact (leg2_failure_naked_warning_no_update (sampleStrat true)
    ⟨some 100, true, false⟩ 99 (201/2) (3/2) sampleState rfl rfl rfl).1

/-- C8: on any tick where one of the four stored best prices is exactly
zero, checkAndTrade returns immediately: no order is placed (the outcome
is the bare notReady return of engine.go line 197) and the state,
including position, totalPnL and the risk controller, is returned
unchanged. -/
theorem zero_quote_guard (scfg : StrategyConfig) (clk : Clock)
    (env : TickEnv) (st : EngineState)
    (h : st.apexBid = 0 ∨ st.apexAsk = 0 ∨ st.bybitBid = 0 ∨ st.bybitAsk = 0) :
    checkAndTrade scfg clk env st = (st, TickOutcome.notReady) := by
  simp [checkAndTrade, h]

/-- Witness for C8: a state whose Bybit ask is still zero is skipped. -/
theorem zero_quote_guard_witness :
    checkAndTrade (sampleStrat true) ⟨100, 0⟩ ⟨some 100, true, true⟩
        { sampleState with bybitAsk := 0 } =
      ({ sampleState with bybitAsk := 0 }, TickOutcome.notReady) := by
  exact zero_quote_guard (sampleStrat true) ⟨100, 0⟩ ⟨some 100, true, true⟩
    { sampleState with bybitAsk := 0 } (by right; right; right; rfl)

/-- C6: with Apex ask 99.0, Bybit bid 100.5, min spread 1.0, flat position,
max position 1, both remaining quotes non-zero, account query succeeding,
the risk gate passing, neither PnL target hit, and all order placements
succeeding, the tick takes the opportunity-1 (executedLong) path — checked
before opportunity 2 and the only trade of the tick — leaving net position
+OrderSize and adding 1.5 × OrderSize both to the engine total and to the
risk controller via RecordTrade. -/
theorem opportunity1_scenario (scfg : StrategyConfig) (clk : Clock)
    (env : TickEnv) (st : EngineState) (bal : ℚ)
    (hask : st.apexAsk = 99) (hbid : st.bybitBid = 201/2)
    (hb1 : st.apexBid ≠ 0) (hb2 : st.bybitAsk ≠ 0)
    (hmin : scfg.MinSpreadUSDC = 1) (hpos : st.position = 0)
    (hmax : scfg.MaxPosition = 1)
    (hacct : env.accountResult = some bal)
    (hrisk : (Check clk bal st.risk).1 = none)
    (htp : st.totalPnL < scfg.TakeProfitUSDC)
    (hsl : -scfg.StopLossUSDC < st.totalPnL)
    (hao : env.apexOrderOk = true) (hbo : env.bybitOrderOk = true) :
    (checkAndTrade scfg clk env st).1.position = scfg.OrderSize ∧
    (checkAndTrade scfg clk env st).1.totalPnL =
      st.totalPnL + (3/2) * scfg.OrderSize ∧
    (checkAndTrade scfg clk env st).1.risk =
      RecordTrade ((3/2) * scfg.OrderSize) (Check clk bal st.risk).2 ∧
    (∃ ev, (checkAndTrade scfg clk env st).2 = TickOutcome.executedLong ev) := by
  rcases hc : Check clk bal st.risk with ⟨o, r2⟩
  have ho : o = none := by rw [hc] at hrisk; exact hrisk
  subst ho
  have hguard : ¬ (st.apexBid = 0 ∨ st.apexAsk = 0 ∨ st.bybitBid = 0 ∨
      st.bybitAsk = 0) := by
    push_neg
    refine ⟨hb1, ?_, ?_, hb2⟩
    · rw [hask]; norm_num
    · rw [hbid]; norm_num
  have hntp : ¬ st.totalPnL ≥ scfg.TakeProfitUSDC := not_le.mpr htp
  have hnsl : ¬ st.totalPnL ≤ -scfg.StopLossUSDC := not_le.mpr (by linarith)
  have hspread : st.bybitBid - st.apexAsk = 3/2 := by
    rw [hbid, hask]; norm_num
  have hopp : st.bybitBid - st.apexAsk ≥ scfg.MinSpreadUSDC ∧
      st.position < scfg.MaxPosition := by
    rw [hspread, hmin, hpos, hmax]; norm_num
  simp only [checkAndTrade, hguard, if_false, hacct, hc, hntp, hnsl,
    hopp, if_true, executeLong, hao, hbo, Bool.not_true, Bool.and_false,
    Bool.false_eq_true]
  simp only [ite_false, hspread, hpos]
  constructor
  · simp
  constructor
  · simp
  constructor
  · simp
  · exact ⟨_, rfl⟩

/-- Witness for C6 at the concrete spec scenario (hedge mode on,
balance 100, a healthy controller, same-day clock). -/
theorem opportunity1_scenario_witness :
    (checkAndTrade (sampleStrat true) ⟨100, 0⟩ ⟨some 100, true, true⟩
        sampleState).1.position = (sampleStrat true).OrderSize ∧
    (checkAndTrade (sampleStrat true) ⟨100, 0⟩ ⟨some 100, true, true⟩
        sampleState).1.totalPnL = (3/2) * (sampleStrat true).OrderSize := by
  have h := opportunity1_scenario (sampleStrat true) ⟨100, 0⟩
    ⟨some 100, true, true⟩ sampleState 100
    rfl rfl (by norm_num [sampleState]) (by norm_num [sampleState]) rfl rfl
    rfl rfl
    (by norm_num [Check, resetIfNewDay, halt, sampleState, sampleRisk, hours24])
    (by norm_num [sampleState, sampleStrat])
    (by norm_num [sampleState, sampleStrat]) rfl rfl
  refine ⟨h.1, ?_⟩
  rw [h.2.1]
  norm_num [sampleState]

/- ========== strategy/engine.go Start and waitForMarketData ========== -/

/-- The five failure exits of ArbEngine.Start (engine.go lines 90, 93,
98, 101, 107): the wrapped connect/subscribe errors and the readiness
timeout from waitForMarketData. -/
inductive StartErr where
  | apexConnectFailed
  | apexSubscribeFailed
  | bybitConnectFailed
  | bybitSubscribeFailed
  | marketDataTimeout
deriving DecidableEq, Repr

/-- The two goroutines Start launches after the readiness wait. -/
inductive EngineTask where
  | arbLoop
  | statusLoop
deriving DecidableEq, Repr

/-- Outcomes of the external calls Start makes, in program order, plus
the finite sequence of (apexBid, bybitBid) samples the 200ms readiness
poll observes before the 10s deadline. -/
structure StartEnv where
  apexConnectOk : Bool
  apexSubscribeOk : Bool
  bybitConnectOk : Bool
  bybitSubscribeOk : Bool
  polls : List (ℚ × ℚ)
deriving DecidableEq, Repr

/-- ArbEngine.waitForMarketData (engine.go lines 378-389): succeeds iff
some poll before the deadline sees both stored bids strictly positive;
otherwise the deadline passes and it returns the timeout error. -/
def waitForMarketData (polls : List (ℚ × ℚ)) : Bool :=
  polls.any fun p => decide (0 < p.1) && decide (0 < p.2)

/-- ArbEngine.Start (engine.go lines 82-121): connect and subscribe on
Apex, then on Bybit, each failure returned immediately; then block on
waitForMarketData; only on its success are the arbitrage loop and the
status reporter launched. -/
def Start (env : StartEnv) : Except StartErr (List EngineTask) :=
  if !env.apexConnectOk then Except.error StartErr.apexConnectFailed
  else if !env.apexSubscribeOk then Except.error StartErr.apexSubscribeFailed
  else if !env.bybitConnectOk then Except.error StartErr.bybitConnectFailed
  else if !env.bybitSubscribeOk then Except.error StartErr.bybitSubscribeFailed
  else if waitForMarketData env.polls then
    Except.ok [EngineTask.arbLoop, EngineTask.statusLoop]
  else Except.error StartErr.marketDataTimeout

/-- C9: Start fails exactly when one of the connect/subscribe calls on
the two stream clients fails or the bounded readiness wait times out;
on success some readiness poll saw a non-zero quote on both sides before
the decision loop and the status reporter (the only two launched tasks)
were started. -/
theorem Start_spec (env : StartEnv) :
    ((∃ e, Start env = Except.error e) ↔
      ¬ (env.apexConnectOk = true ∧ env.apexSubscribeOk = true ∧
         env.bybitConnectOk = true ∧ env.bybitSubscribeOk = true ∧
         waitForMarketData env.polls = true)) ∧
    (∀ ts, Start env = Except.ok ts →
      ts = [EngineTask.arbLoop, EngineTask.statusLoop] ∧
      ∃ p ∈ env.polls, 0 < p.1 ∧ 0 < p.2) := by
  constructor
  · constructor
    · rintro ⟨e, he⟩ ⟨h1, h2, h3, h4, h5⟩
      simp [Start, h1, h2, h3, h4, h5] at he
    · intro h
      by_cases h1 : env.apexConnectOk = true
      · by_cases h2 : env.apexSubscribeOk = true
        · by_cases h3 : env.bybitConnectOk = true
          · by_cases h4 : env.bybitSubscribeOk = true
            · by_cases h5 : waitForMarketData env.polls = true
              · exact absurd ⟨h1, h2, h3, h4, h5⟩ h
              · exact ⟨StartErr.marketDataTimeout,
                  by simp [Start, h1, h2, h3, h4, h5]⟩
            · exact ⟨StartErr.bybitSubscribeFailed,
                by simp [Start, h1, h2, h3, h4]⟩
          · exact ⟨StartErr.bybitConnectFailed, by simp [Start, h1, h2, h3]⟩
        · exact ⟨StartErr.apexSubscribeFailed, by simp [Start, h1, h2]⟩
      · exact ⟨StartErr.apexConnectFailed, by simp [Start, h1]⟩
  · intro ts hts
    simp only [Start] at hts
    by_cases h1 : env.apexConnectOk = true
    · by_cases h2 : env.apexSubscribeOk = true
      · by_cases h3 : env.bybitConnectOk = true
        · by_cases h4 : env.bybitSubscribeOk = true
          · by_cases h5 : waitForMarketData env.polls = true
            · simp [h1, h2, h3, h4, h5] at hts
              subst hts
              refine ⟨rfl, ?_⟩
              simp only [waitForMarketData, List.any_eq_true,
                Bool.and_eq_true, decide_eq_true_eq] at h5
              exact h5
            · simp [h1, h2, h3, h4, h5] at hts
          · simp [h1, h2, h3, h4] at hts
        · simp [h1, h2, h3] at hts
      · simp [h1, h2] at hts
    · simp [h1] at hts

/-- Witness for C9: a run where everything succeeds and the second poll
sees both quotes warm. -/
theorem Start_spec_witness :
    Start ⟨true, true, true, true, [(0, 0), (99, 201/2)]⟩ =
      Except.ok [EngineTask.arbLoop, EngineTask.statusLoop] ∧
    ∃ p ∈ [((0 : ℚ), (0 : ℚ)), (99, 201/2)], 0 < p.1 ∧ 0 < p.2 := by
  have hok : Start ⟨true, true, true, true, [(0, 0), (99, 201/2)]⟩ =
      Except.ok [EngineTask.arbLoop, EngineTask.statusLoop] := by
    norm_num [Start, waitForMarketData]
  exact ⟨hok, ((Start_spec ⟨true, true, true, true, [(0, 0), (99, 201/2)]⟩).2
    [EngineTask.arbLoop, EngineTask.statusLoop] hok).2⟩

/- ====== apex / bybit WebSocket clients: reconnect and heartbeat ====== -/

/-- Backoff floor, 1s (apex wsInitialBackoff, bybit bybitWsInitialBackoff;
both clients use the same constants, modelled in seconds). -/
def wsInitialBackoff : Int := 1

/-- Backoff ceiling, 30s (apex wsMaxBackoff, bybit bybitWsMaxBackoff). -/
def wsMaxBackoff : Int := 30

/-- Heartbeat interval, 20s (apex wsPingInterval, bybit
bybitWsPingInterval). -/
def wsPingInterval : Int := 20

/-- Pong timeout, 10s (apex wsPongTimeout; the bybit client declares no
pong-timeout constant at all). -/
def wsPongTimeout : Int := 10

/-- One iteration of reconnectLoop as seen from the outside: whether the
redial succeeded and the per-subscription outcomes of resubscribeAll. -/
structure ReconnAttempt where
  dialOk : Bool
  resubResults : List Bool
deriving DecidableEq, Repr

/-- The backoff update of reconnectLoop (apex part lines 172-186, bybit
part lines 487-501), identical in both clients: on a failed dial the
backoff doubles and is clamped to the ceiling; on a successful dial it is
set back to the floor immediately — on the line before resubscribeAll
runs — and resubscribeAll only logs its per-topic failures, so the
resubscription outcomes never influence the backoff. -/
def nextBackoff (dialOk : Bool) (_resubResults : List Bool) (backoff : Int) :
    Int :=
  if dialOk then wsInitialBackoff
  else if backoff * 2 > wsMaxBackoff then wsMaxBackoff else backoff * 2

/-- The successive delays reconnectLoop waits before each attempt of a
run, starting from the current backoff value. -/
def reconnectWaits : List ReconnAttempt → Int → List Int
  | [], _ => []
  | a :: rest, b => b :: reconnectWaits rest (nextBackoff a.dialOk a.resubResults b)

/-- On a failed dial the backoff never shrinks and stays within the
floor/ceiling band. -/
theorem nextBackoff_fail_bounds (rs : List Bool) (b : Int)
    (hlo : wsInitialBackoff ≤ b) (hhi : b ≤ wsMaxBackoff) :
    b ≤ nextBackoff false rs b ∧ wsInitialBackoff ≤ nextBackoff false rs b ∧
    nextBackoff false rs b ≤ wsMaxBackoff := by
  simp only [nextBackoff, wsInitialBackoff, wsMaxBackoff, Bool.false_eq_true,
    if_false] at *
  split <;> omega

/-- Over a run of failed dials, the waited delays are non-decreasing and
stay within the floor/ceiling band. -/
theorem reconnectWaits_mono_bounded (attempts : List ReconnAttempt) (b : Int)
    (hfail : ∀ a ∈ attempts, a.dialOk = false)
    (hlo : wsInitialBackoff ≤ b) (hhi : b ≤ wsMaxBackoff) :
    List.Chain' (· ≤ ·) (reconnectWaits attempts b) ∧
    ∀ w ∈ reconnectWaits attempts b, wsInitialBackoff ≤ w ∧ w ≤ wsMaxBackoff := by
  induction attempts generalizing b with
  | nil => simp [reconnectWaits]
  | cons a rest ih =>
      have ha : a.dialOk = false := hfail a (by simp)
      have hb := nextBackoff_fail_bounds a.resubResults b hlo hhi
      have hrest : ∀ x ∈ rest, x.dialOk = false := fun x hx =>
        hfail x (by simp [hx])
      have h2 := ih (nextBackoff false a.resubResults b) hrest hb.2.1 hb.2.2
      rw [reconnectWaits, ha]
      constructor
      · rw [List.chain'_cons']
        refine ⟨?_, h2.1⟩
        intro y hy
        rcases rest with _ | ⟨a2, r2⟩
        · simp [reconnectWaits] at hy
        · rw [reconnectWaits] at hy
          simp only [List.head?_cons, Option.mem_def, Option.some.injEq] at hy
          subst hy
          exact hb.1
      · intro w hw
        rcases List.mem_cons.mp hw with h | h
        · subst h; exact ⟨hlo, hhi⟩
        · exact h2.2 w h

/-- C2 is false on the code: backoff is reset to the floor by a successful
redial alone. In this run the first two dials fail (waits 1s then 2s,
doubling), the third attempt redials successfully but every resubscription
in it fails, and the next attempt nonetheless waits only the 1s floor
again — the reset did not require a successful resubscribe cycle. -/
theorem backoff_reset_counterexample :
    reconnectWaits
      [⟨false, []⟩, ⟨false, []⟩, ⟨true, [false, false]⟩, ⟨false, []⟩] 1 =
      [1, 2, 4, 1] ∧
    nextBackoff true [false, false] 4 = wsInitialBackoff := by
  constructor <;> decide

/-- C2 amended: across consecutive failed reconnect attempts the backoff
delay is monotonically non-decreasing, doubling (clamped at the 30s
ceiling) from wherever it stands in the 1s-to-30s band; and the backoff
is reset to the 1s floor as soon as the redial succeeds, before and
regardless of the resubscription outcomes. -/
theorem backoff_policy (attempts : List ReconnAttempt) (b : Int)
    (hfail : ∀ a ∈ attempts, a.dialOk = false)
    (hlo : wsInitialBackoff ≤ b) (hhi : b ≤ wsMaxBackoff) :
    List.Chain' (· ≤ ·) (reconnectWaits attempts b) ∧
    (∀ w ∈ reconnectWaits attempts b, wsInitialBackoff ≤ w ∧ w ≤ wsMaxBackoff) ∧
    (∀ rs b2, (b * 2 ≤ wsMaxBackoff → nextBackoff false rs b = b * 2) ∧
      (b * 2 > wsMaxBackoff → nextBackoff false rs b = wsMaxBackoff) ∧
      nextBackoff true rs b2 = wsInitialBackoff) := by
  have h := reconnectWaits_mono_bounded attempts b hfail hlo hhi
  refine ⟨h.1, h.2, ?_⟩
  intro rs b2
  refine ⟨?_, ?_, by simp [nextBackoff]⟩ <;> intro hcase <;>
    simp only [nextBackoff, wsInitialBackoff, wsMaxBackoff,
      Bool.false_eq_true, if_false] at * <;> split <;> omega

/-- Witness for the amended C2 on a concrete all-failed run from the
floor. -/
theorem backoff_policy_witness :
    List.Chain' (· ≤ ·)
      (reconnectWaits [⟨false, []⟩, ⟨false, []⟩, ⟨false, []⟩, ⟨false, []⟩,
        ⟨false, []⟩, ⟨false, []⟩] 1) ∧
    nextBackoff true [] 30 = wsInitialBackoff := by
  have h := backoff_policy
    [⟨false, []⟩, ⟨false, []⟩, ⟨false, []⟩, ⟨false, []⟩, ⟨false, []⟩,
      ⟨false, []⟩] 1
    (by intro a ha; fin_cases ha <;> rfl) (by decide) (by decide)
  exact ⟨h.1, (h.2.2 [] 30).2.2⟩

/-- The action one heartbeat tick takes. -/
inductive PingAction where
  | closeStale
  | sendPing
deriving DecidableEq, Repr

/-- One tick of the Apex pingLoop (apex part lines 253-272): if a pong
has ever been received (`lastPongAt` non-zero, modelled as `some`) and
more than wsPingInterval + wsPongTimeout elapsed since it, log, force-close
the socket and exit; otherwise send the next ping. -/
def apexPingTick (lastPongAt : Option Int) (now : Int) : PingAction :=
  match lastPongAt with
  | some t =>
      if now - t > wsPingInterval + wsPongTimeout then PingAction.closeStale
      else PingAction.sendPing
  | none => PingAction.sendPing

/-- One tick of the Bybit pingLoop (bybit part lines 571-580): it
unconditionally sends the JSON ping. The Bybit WsClient tracks no
lastPongAt at all (its struct has no such field and no pong handler), so
the parameters are carried only for comparison with the Apex task and are
ignored, exactly as the code ignores pong staleness. -/
def bybitPingTick (_lastPongAt : Option Int) (_now : Int) : PingAction :=
  PingAction.sendPing

/-- C3 is false on the code for the Bybit client: at a tick where the
last heartbeat acknowledgment is 100s old — far beyond the 20s interval
plus the 10s pong timeout — the Bybit heartbeat task still just sends
another ping and never force-closes the socket. -/
theorem bybit_no_stale_detection_counterexample :
    (100 : Int) - 0 > wsPingInterval + wsPongTimeout ∧
    bybitPingTick (some 0) 100 = PingAction.sendPing ∧
    PingAction.sendPing ≠ PingAction.closeStale := by
  refine ⟨by decide, rfl, by decide⟩

/-- C3 amended: only the Apex client's heartbeat task performs stale-link
detection — on any tick where a pong has been received before and more
than interval + pongTimeout elapsed since it, it force-closes the socket —
while the Bybit client's heartbeat task never closes the link, whatever
the staleness. -/
theorem pingLoop_stale_detection (t now : Int)
    (h : now - t > wsPingInterval + wsPongTimeout) :
    apexPingTick (some t) now = PingAction.closeStale ∧
    (∀ p n, bybitPingTick p n = PingAction.sendPing) := by
  refine ⟨?_, fun p n => rfl⟩
  simp [apexPingTick, h]

/-- Witness for the amended C3 with a 31s-old acknowledgment. -/
theorem pingLoop_stale_detection_witness :
    apexPingTick (some 0) 31 = PingAction.closeStale := by
  exact (pingLoop_stale_detection 0 31 (by decide)).1
